import Mathlib

/-!
# LeSynth Fourier core: shallow embedding and verification

This file embeds the computational core of the `lesynth-fourier` additive
synthesizer (`src/engine/synth_compute_engine.rs` and the mixer part of
`src/plugin.rs`) in Lean 4 and proves or refutes the frozen specification
claims about it.

Modelling conventions:
* `f32` values are modelled as exact rationals `ℚ`.  The transcendental
  `sin` function and the `TWO_PI` constant (the latter lives in the missing
  `src/constants.rs`) are passed as explicit parameters `sinf : ℚ → ℚ` and
  `twoPi : ℚ`; none of the verified claims depend on their concrete values.
* `max_harmonic_for_key` (also in the missing `src/constants.rs`) is passed
  as a parameter `maxh : ℕ → ℕ`, and the key count `NUM_KEYS` as `numKeys`.
* The shared store `SharedParams` (missing `src/engine/shared_params.rs`)
  is modelled as an explicit state record `EngineState`; its fields are the
  ones read and written by the engine code under `src/`.  Mutation becomes
  explicit state passing; the lock structure itself is erased, and the
  cooperative cancellation flag is modelled by oracles describing the
  values the worker observes at each read.
-/

/-- Rust's `x.clamp(lo, hi)`: `lo` if `x < lo`, `hi` if `x > hi`, else `x`
(for `lo ≤ hi` this is `max lo (min x hi)`). -/
def ratClamp (x lo hi : ℚ) : ℚ := max lo (min x hi)

/-- `ChartType` selector between the amplitude and the phase table
(`src/engine/mod.rs`, used throughout `synth_compute_engine.rs`). -/
inductive ChartType where
  | Amp : ChartType
  | Phase : ChartType
  deriving DecidableEq, Repr

/-- Per-key cache coherence state (`BufferState` in the missing
`src/engine/shared_params.rs`; its three variants `Clean`, `Dirty`,
`Computing` are fixed by their uses in `synth_compute_engine.rs` and
`gui/piano_keyboard.rs`). -/
inductive BufferState where
  | Clean : BufferState
  | Dirty : BufferState
  | Computing : BufferState
  deriving DecidableEq, Repr

/-- One sounding note (`Voice` in the missing `src/voice.rs`; the fields are
fixed by the literal construction site in `src/plugin.rs` lines 87-94). -/
structure Voice where
  buffer : List ℚ
  idx : ℕ
  fade_in_active : Bool
  fade_in_pos : ℕ
  fade_out_active : Bool
  fade_out_pos : ℕ
  deriving DecidableEq, Repr

/-- A per-harmonic table of per-bucket values (`Vec<Vec<f32>>`). -/
abbrev Table := List (List ℚ)

/-- The shared store (`SharedParams`): one field per independently locked
piece of state actually touched by the embedded engine code. -/
structure EngineState where
  amplitude_data : Table
  phase_data : Table
  amplitude_data_normalized : Table
  normalization_needed : Bool
  harmonic_ampl_enabled : List Bool
  harmonic_phase_enabled : List Bool
  piano_periods : List ℕ
  buffer_states : List BufferState
  key_buffers : List (Option (List ℚ))
  voices : List (Option Voice)
  assembled_sound_plotted : List ℚ
  should_reset_chart_view : Bool
  deriving DecidableEq, Repr

/-- `row.iter().copied().fold(f32::NEG_INFINITY, f32::max)` from
`normalize_amplitude_data`: `none` plays the role of `NEG_INFINITY`
(the result for an empty row). -/
def rowMaxNI (r : List ℚ) : Option ℚ :=
  r.foldl (fun acc v =>
    match acc with
    | none => some v
    | some m => some (max m v)) none

/-- The sum of the per-harmonic maxima (`maximums.iter().copied().sum()`):
`none` (= `-∞`) as soon as some row is empty, mirroring `-∞ + x = -∞`. -/
def sumMaxima (t : Table) : Option ℚ :=
  t.foldl (fun acc r =>
    match acc, rowMaxNI r with
    | some a, some b => some (a + b)
    | _, _ => none) (some 0)

/-- Dividing every entry of the table by `s` (the `val / sum` branch). -/
def scaleTable (t : Table) (s : ℚ) : Table :=
  t.map (fun r => r.map (fun v => v / s))

/-- `SynthComputeEngine::normalize_amplitude_data` (lines 129-147) as a pure
table-to-table function: sum the per-harmonic maxima over all buckets; if
that sum exceeds `1.0`, divide every entry by it, else copy unchanged.
The `-∞` sum produced by an empty row is never `> 1.0`, so it copies. -/
def normalize_amplitude_data (t : Table) : Table :=
  match sumMaxima t with
  | some s => if 1 < s then scaleTable t s else t
  | none => t

/-- Per-bucket column sum over all harmonics (the inner
`ampl_data_normalized.iter().map(|harmonic| harmonic[b]).sum()`). -/
def colSum (t : Table) (b : ℕ) : ℚ :=
  (t.map (fun r => r.getD b 0)).sum

/-- `SynthComputeEngine::normalize_amplitude_data_static` (lines 420-442) as a
pure function: copy the raw table, then for every bucket `b` below the first
row's length, if the per-harmonic column sum at `b` exceeds `1.0`, divide that
column by its own sum.  Note this is a different algorithm from
`normalize_amplitude_data` above, although the Rust doc comment calls it the
"Static version" of it. -/
def normalize_amplitude_data_static (t : Table) : Table :=
  let nb := (t.headD []).length
  t.map (fun r =>
    (List.range r.length).map (fun b =>
      let v := r.getD b 0
      if b < nb ∧ 1 < colSum t b then v / colSum t b else v))

/-- The normalization step at the top of `assemble_buffer_for_key` (lines
152-155): if `normalization_needed` is set, rebuild
`amplitude_data_normalized` with the synchronous normalizer and clear the
flag. -/
def post_normalize (s : EngineState) : EngineState :=
  if s.normalization_needed then
    { s with amplitude_data_normalized := normalize_amplitude_data s.amplitude_data,
             normalization_needed := false }
  else s

/-- The normalization step at the top of `compute_buffer_for_key_static`
(lines 352-355): same as `post_normalize` but with the background
normalizer. -/
def post_normalize_static (s : EngineState) : EngineState :=
  if s.normalization_needed then
    { s with amplitude_data_normalized := normalize_amplitude_data_static s.amplitude_data,
             normalization_needed := false }
  else s

/-- One additive-synthesis sample: the inner harmonic loop of both assembly
routines (lines 169-184 and 394-407), shared verbatim by the two paths.
`sinf` stands for `f32::sin` and `twoPi` for the `TWO_PI` constant. -/
def synth_sample (sinf : ℚ → ℚ) (twoPi : ℚ) (numHarmonics maxHarmonic : ℕ)
    (normalized phase_data : Table) (ampl_enabled phase_enabled : List Bool)
    (bucket t period : ℕ) : ℚ :=
  let sample := (List.range (min numHarmonics maxHarmonic)).foldl (fun acc n =>
    let amp := (normalized.getD n []).getD bucket 0
    if !(ampl_enabled.getD n false) || amp = 0 then acc
    else
      let phase := if phase_enabled.getD n false then (phase_data.getD n []).getD bucket 0 else 0
      acc + amp * sinf (twoPi * ((n : ℚ) + 1) * (t : ℚ) / (period : ℚ) + phase)) 0
  ratClamp sample (-1) 1

/-- `SynthComputeEngine::assemble_buffer_for_key` (lines 149-194): normalize
if pending, then for every bucket and every sample offset `t` in
`0..period(key)` emit one clamped additive sample.  Returns the updated
store (normalization may have been published) and the sample sequence.
`maxh` stands for `max_harmonic_for_key` from the missing
`src/constants.rs`. -/
def assemble_buffer_for_key (sinf : ℚ → ℚ) (twoPi : ℚ) (maxh : ℕ → ℕ)
    (s : EngineState) (key : ℕ) : EngineState × List ℚ :=
  let s1 := post_normalize s
  let numHarmonics := s1.amplitude_data.length
  let period := s1.piano_periods.getD key 0
  let maxHarmonic := maxh key
  let sound := (List.range (s1.amplitude_data_normalized.headD []).length).flatMap (fun bucket =>
    (List.range period).map (fun t =>
      synth_sample sinf twoPi numHarmonics maxHarmonic
        s1.amplitude_data_normalized s1.phase_data
        s1.harmonic_ampl_enabled s1.harmonic_phase_enabled bucket t period))
  (s1, sound)

/-- Modelled from the spec: `SharedParams::mark_all_buffers_dirty` lives in
the missing `src/engine/shared_params.rs`; per the spec ("marks **every**
key's BufferState Dirty", §4.1) it sets every entry of `buffer_states` to
`Dirty`. -/
def mark_all_buffers_dirty (s : EngineState) : EngineState :=
  { s with buffer_states := s.buffer_states.map (fun _ => BufferState.Dirty) }

/-- `SynthComputeEngine::update_assembled_chart_with_key24` (lines 250-272):
synchronously recompute key 24's waveform and publish it to the *plotted
chart* (`assembled_sound_plotted`), requesting a chart-view reset; clear the
chart if the buffer came back empty.  It does not touch `key_buffers` or
`buffer_states`. -/
def update_assembled_chart_with_key24 (sinf : ℚ → ℚ) (twoPi : ℚ) (maxh : ℕ → ℕ)
    (s : EngineState) : EngineState :=
  let r := assemble_buffer_for_key sinf twoPi maxh s 24
  if r.2 ≠ [] then
    { r.1 with assembled_sound_plotted := r.2.map (fun x => ratClamp x (-1) 1),
               should_reset_chart_view := true }
  else
    { r.1 with assembled_sound_plotted := [] }

/-- The table selected by a `ChartType` (the repeated
`match chart_type { Amp => amplitude_data, Phase => phase_data }`). -/
def curve_table (ct : ChartType) (s : EngineState) : Table :=
  match ct with
  | ChartType.Amp => s.amplitude_data
  | ChartType.Phase => s.phase_data

/-- Writing a freshly generated row back into the store's table for `ct`. -/
def set_curve_row (ct : ChartType) (n : ℕ) (row : List ℚ) (s : EngineState) : EngineState :=
  match ct with
  | ChartType.Amp => { s with amplitude_data := s.amplitude_data.set n row }
  | ChartType.Phase => { s with phase_data := s.phase_data.set n row }

/-- The per-bucket wobble term `wobble_amp * sin(wobble_freq * bucket * 0.01)`
(or 0 when the wobble amplitude is not positive), shared by both curve
generators. -/
def wobble_term (sinf : ℚ → ℚ) (wobbleAmp wobbleFreq : ℚ) (bucket : ℕ) : ℚ :=
  if 0 < wobbleAmp then wobbleAmp * sinf (wobbleFreq * (bucket : ℚ) * (1/100)) else 0

/-- The row written by `fill_constant_curve`'s update loop (lines 61-72):
bucket `b` gets `value + wobble`, clamped to `[0,1]` for `Amp` and unclamped
for `Phase`. -/
def constant_curve_row (sinf : ℚ → ℚ) (wobbleAmp wobbleFreq value : ℚ)
    (ct : ChartType) (len : ℕ) : List ℚ :=
  (List.range len).map (fun bucket =>
    let wobble := wobble_term sinf wobbleAmp wobbleFreq bucket
    match ct with
    | ChartType.Amp => ratClamp (value + wobble) 0 1
    | ChartType.Phase => value + wobble)

/-- The row written by `fill_sin_curve`'s loop (lines 108-120): bucket `b`
gets `a * sin(b_freq * b) + offset + wobble`, clamped by target. -/
def sine_curve_row (sinf : ℚ → ℚ) (a bFreq ampOff wobbleAmp wobbleFreq : ℚ)
    (ct : ChartType) (len : ℕ) : List ℚ :=
  (List.range len).map (fun (bucket : ℕ) =>
    let raw := a * sinf (bFreq * (bucket : ℚ))
    let wobble := wobble_term sinf wobbleAmp wobbleFreq bucket
    match ct with
    | ChartType.Amp => ratClamp (raw + ampOff + wobble) 0 1
    | ChartType.Phase => raw + ampOff + wobble)

/-- The invalidation cascade shared by both curve generators (lines 73-78 and
121-126): set `normalization_needed`, mark every key's buffer dirty, refresh
the key-24 preview chart. -/
def invalidate_after_write (sinf : ℚ → ℚ) (twoPi : ℚ) (maxh : ℕ → ℕ)
    (s : EngineState) : EngineState :=
  update_assembled_chart_with_key24 sinf twoPi maxh
    (mark_all_buffers_dirty { s with normalization_needed := true })

/-- `SynthComputeEngine::fill_constant_curve` (lines 44-80).  `wobbleAmp` and
`wobbleFreq` are the values read from the parameter store (external per §6).
If the new value differs from the row's bucket 0 or a wobble is active,
rewrite every bucket to `value + wobble` (clamped to `[0,1]` for `Amp`),
set `normalization_needed`, mark every key dirty and synchronously refresh
the key-24 preview chart; otherwise do nothing. -/
def fill_constant_curve (sinf : ℚ → ℚ) (twoPi : ℚ) (maxh : ℕ → ℕ)
    (wobbleAmp wobbleFreq : ℚ) (n : ℕ) (value : ℚ) (ct : ChartType)
    (s : EngineState) : EngineState :=
  let data := curve_table ct s
  if ((data.getD n []).getD 0 0 ≠ value) ∨ 0 < wobbleAmp then
    invalidate_after_write sinf twoPi maxh
      (set_curve_row ct n
        (constant_curve_row sinf wobbleAmp wobbleFreq value ct (data.getD n []).length) s)
  else s

/-- `SynthComputeEngine::fill_sin_curve` (lines 82-127).  `a`, `bFreq`,
`ampOff`, `wobbleAmp`, `wobbleFreq` are the parameter-store reads; every
bucket gets `a * sin(bFreq * bucket) + ampOff + wobble` (clamped for `Amp`),
then the same invalidation cascade as the constant fill, unconditionally. -/
def fill_sin_curve (sinf : ℚ → ℚ) (twoPi : ℚ) (maxh : ℕ → ℕ)
    (a bFreq ampOff wobbleAmp wobbleFreq : ℚ) (n : ℕ) (ct : ChartType)
    (s : EngineState) : EngineState :=
  let data := curve_table ct s
  invalidate_after_write sinf twoPi maxh
    (set_curve_row ct n
      (sine_curve_row sinf a bFreq ampOff wobbleAmp wobbleFreq ct (data.getD n []).length) s)

/-- The bucket count the background computation iterates over
(`ampl_data_copy[0].len()` after the pending normalization, line 381). -/
def compute_num_buckets (s : EngineState) : ℕ :=
  ((post_normalize_static s).amplitude_data_normalized.headD []).length

/-- Whether the cooperative cancellation flag is observed set at one of the
per-bucket checks (line 383); `cancel b` is the flag value the worker reads
at the start of bucket `b`. -/
def observed_cancelled (cancel : ℕ → Bool) (numBuckets : ℕ) : Bool :=
  (List.range numBuckets).any cancel

/-- `SynthComputeEngine::compute_buffer_for_key_static` (lines 349-417):
normalize if pending (with the *static* normalizer), snapshot the tables,
then produce the samples bucket by bucket, returning an empty buffer as soon
as a per-bucket cancellation check observes the flag set. -/
def compute_buffer_for_key_static (sinf : ℚ → ℚ) (twoPi : ℚ) (maxh : ℕ → ℕ)
    (cancel : ℕ → Bool) (s : EngineState) (key : ℕ) : EngineState × List ℚ :=
  let s1 := post_normalize_static s
  let maxHarmonic := maxh key
  let numHarmonics := s1.amplitude_data_normalized.length
  let period := s1.piano_periods.getD key 0
  let numBuckets := (s1.amplitude_data_normalized.headD []).length
  if observed_cancelled cancel numBuckets then (s1, [])
  else
    (s1, (List.range numBuckets).flatMap (fun bucket =>
      (List.range period).map (fun t =>
        synth_sample sinf twoPi numHarmonics maxHarmonic
          s1.amplitude_data_normalized s1.phase_data
          s1.harmonic_ampl_enabled s1.harmonic_phase_enabled bucket t period)))

/-- One pass of the background worker body for an already selected key
(lines 306-339 of `start_async_computation_thread`): re-check the key is
still `Dirty` under the lock and mark it `Computing`; run the static
computation (with its per-bucket cancellation checks described by the
oracle `cancel`); then read the cancellation flag once more
(`cancelFinal`): if clear, store the buffer and mark the key `Clean`,
otherwise discard it and mark the key `Dirty` again. -/
def schedulerIteration (sinf : ℚ → ℚ) (twoPi : ℚ) (maxh : ℕ → ℕ)
    (cancel : ℕ → Bool) (cancelFinal : Bool) (s : EngineState) (key : ℕ) : EngineState :=
  if s.buffer_states.getD key BufferState.Clean = BufferState.Dirty then
    let s1 := { s with buffer_states := s.buffer_states.set key BufferState.Computing }
    let r := compute_buffer_for_key_static sinf twoPi maxh cancel s1 key
    if cancelFinal = false then
      { r.1 with key_buffers := r.1.key_buffers.set key (some r.2),
                 buffer_states := r.1.buffer_states.set key BufferState.Clean }
    else
      { r.1 with buffer_states := r.1.buffer_states.set key BufferState.Dirty }
  else s

/-- `SynthComputeEngine::get_buffer_for_key` (lines 445-481): out-of-range
keys yield an empty buffer; otherwise in every `BufferState` the cached
buffer is returned when one exists, and only a never-computed key falls back
to the synchronous `assemble_buffer_for_key`. -/
def get_buffer_for_key (sinf : ℚ → ℚ) (twoPi : ℚ) (maxh : ℕ → ℕ) (numKeys : ℕ)
    (s : EngineState) (key : ℕ) : EngineState × List ℚ :=
  if numKeys ≤ key then (s, [])
  else
    let cached := s.key_buffers.getD key none
    let fromState := match s.buffer_states.getD key BufferState.Clean with
      | BufferState.Clean => cached
      | BufferState.Computing => cached
      | BufferState.Dirty => cached
    match fromState with
    | some buf => (s, buf)
    | none => assemble_buffer_for_key sinf twoPi maxh s key

/-- The `NoteOn` arm of the MIDI event loop (`src/plugin.rs` lines 81-95):
for an in-range key, fetch the best-available buffer and unconditionally
install a fresh voice (cursor 0, fade-in active from 0, fade-out inactive)
in that key's slot. -/
def note_on_event (sinf : ℚ → ℚ) (twoPi : ℚ) (maxh : ℕ → ℕ) (numKeys : ℕ)
    (s : EngineState) (note : ℕ) : EngineState :=
  if note < numKeys then
    let r := get_buffer_for_key sinf twoPi maxh numKeys s note
    { r.1 with voices := r.1.voices.set note (some
        { buffer := r.2, idx := 0, fade_in_active := true, fade_in_pos := 0,
          fade_out_active := false, fade_out_pos := 0 }) }
  else s

/-- The voice-count-keyed loudness compensation table
(`src/plugin.rs` lines 126-133): `1.0, 1.5, 2.0, 2.4, 2.8` for 1-5 voices
and `3.0` for 6 or more. -/
def loudness_compensation (activeCount : ℕ) : ℚ :=
  match activeCount with
  | 1 => 1
  | 2 => 3/2
  | 3 => 2
  | 4 => 12/5
  | 5 => 14/5
  | _ => 3

/-- Number of occupied voice slots (`voices.iter().filter(|o| o.is_some()).count()`). -/
def active_voice_count (voices : List (Option Voice)) : ℕ :=
  (voices.filter (fun o => o.isSome)).length

/-- Per-voice step of the mixdown loop (`src/plugin.rs` lines 141-177):
read `buffer[idx % len]`, apply the per-voice gain, the linear fade-in
(advancing its position), then the fade-out (removing the voice once it
completes, contributing nothing); otherwise advance the cursor and return
the voice's contribution to the frame mix. -/
def mix_voice (fadeDuration : ℕ) (voiceGain : ℚ) (v : Voice) : Option Voice × ℚ :=
  let len := v.buffer.length
  if len = 0 then (some v, 0)
  else
    let s0 := v.buffer.getD (v.idx % len) 0
    let s1 := s0 * voiceGain
    let fadingIn := v.fade_in_active ∧ v.fade_in_pos < fadeDuration
    let s2 := if fadingIn then s1 * ((v.fade_in_pos : ℚ) / (fadeDuration : ℚ)) else s1
    let v2 := if fadingIn then { v with fade_in_pos := v.fade_in_pos + 1 }
              else { v with fade_in_active := false }
    if v2.fade_out_active then
      if v2.fade_out_pos < fadeDuration then
        (some { v2 with fade_out_pos := v2.fade_out_pos + 1, idx := v2.idx + 1 },
         s2 * (1 - (v2.fade_out_pos : ℚ) / (fadeDuration : ℚ)))
      else (none, 0)
    else (some { v2 with idx := v2.idx + 1 }, s2)

/-- One audio frame of the mixdown (`src/plugin.rs` lines 115-189): count
the active voices, derive the per-voice gain `0.8 / N` and the loudness
compensation, fold the per-voice step over the voice table accumulating the
mix, multiply by the compensation and hard-clamp to `[-1, 1]`.  Returns the
updated voice table and the (mono) sample written to both channels. -/
def process_frame (fadeDuration : ℕ) (voices : List (Option Voice)) :
    List (Option Voice) × ℚ :=
  let n := active_voice_count voices
  let voiceGain : ℚ := if 0 < n then (4/5) / (n : ℚ) else 1
  let masterGain : ℚ := if 0 < n then loudness_compensation n else 1
  let step := voices.foldl
    (fun (acc : List (Option Voice) × ℚ) o =>
      match o with
      | none => (acc.1 ++ [none], acc.2)
      | some v =>
        let r := mix_voice fadeDuration voiceGain v
        (acc.1 ++ [r.1], acc.2 + r.2))
    ([], 0)
  (step.1, ratClamp (step.2 * masterGain) (-1) 1)

/-! ## General helper lemmas -/

theorem getD_set_self {α : Type} (l : List α) (k : ℕ) (x d : α) (h : k < l.length) :
    (l.set k x).getD k d = x := by
  rw [List.getD_eq_getElem _ _ (by simpa using h)]
  exact List.getElem_set_self (by simpa using h)

theorem getD_range_map {α : Type} (f : ℕ → α) (len b : ℕ) (d : α) (h : b < len) :
    ((List.range len).map f).getD b d = f b := by
  rw [List.getD_eq_getElem _ _ (by simpa using h)]
  simp

theorem getD_map_dirty (l : List BufferState) (k : ℕ) (h : k < l.length) :
    (l.map (fun _ => BufferState.Dirty)).getD k BufferState.Clean = BufferState.Dirty := by
  rw [List.getD_eq_getElem _ _ (by simpa using h)]
  simp

/-! ## State-preservation lemmas for the engine operations -/

theorem post_normalize_buffer_states (s : EngineState) :
    (post_normalize s).buffer_states = s.buffer_states := by
  unfold post_normalize; split <;> rfl

theorem post_normalize_key_buffers (s : EngineState) :
    (post_normalize s).key_buffers = s.key_buffers := by
  unfold post_normalize; split <;> rfl

theorem post_normalize_amplitude_data (s : EngineState) :
    (post_normalize s).amplitude_data = s.amplitude_data := by
  unfold post_normalize; split <;> rfl

theorem post_normalize_voices (s : EngineState) :
    (post_normalize s).voices = s.voices := by
  unfold post_normalize; split <;> rfl

theorem post_normalize_static_key_buffers (s : EngineState) :
    (post_normalize_static s).key_buffers = s.key_buffers := by
  unfold post_normalize_static; split <;> rfl

theorem post_normalize_static_buffer_states (s : EngineState) :
    (post_normalize_static s).buffer_states = s.buffer_states := by
  unfold post_normalize_static; split <;> rfl

theorem assemble_fst (sinf : ℚ → ℚ) (twoPi : ℚ) (maxh : ℕ → ℕ) (s : EngineState) (key : ℕ) :
    (assemble_buffer_for_key sinf twoPi maxh s key).1 = post_normalize s := rfl

theorem update_chart_buffer_states (sinf : ℚ → ℚ) (twoPi : ℚ) (maxh : ℕ → ℕ) (s : EngineState) :
    (update_assembled_chart_with_key24 sinf twoPi maxh s).buffer_states = s.buffer_states := by
  simp only [update_assembled_chart_with_key24]
  split <;> exact post_normalize_buffer_states s

theorem update_chart_key_buffers (sinf : ℚ → ℚ) (twoPi : ℚ) (maxh : ℕ → ℕ) (s : EngineState) :
    (update_assembled_chart_with_key24 sinf twoPi maxh s).key_buffers = s.key_buffers := by
  simp only [update_assembled_chart_with_key24]
  split <;> exact post_normalize_key_buffers s

theorem update_chart_amplitude_data (sinf : ℚ → ℚ) (twoPi : ℚ) (maxh : ℕ → ℕ) (s : EngineState) :
    (update_assembled_chart_with_key24 sinf twoPi maxh s).amplitude_data = s.amplitude_data := by
  simp only [update_assembled_chart_with_key24]
  split <;> exact post_normalize_amplitude_data s

theorem set_curve_row_buffer_states (ct : ChartType) (n : ℕ) (row : List ℚ) (s : EngineState) :
    (set_curve_row ct n row s).buffer_states = s.buffer_states := by
  cases ct <;> rfl

theorem set_curve_row_key_buffers (ct : ChartType) (n : ℕ) (row : List ℚ) (s : EngineState) :
    (set_curve_row ct n row s).key_buffers = s.key_buffers := by
  cases ct <;> rfl

theorem set_curve_row_states_length (ct : ChartType) (n : ℕ) (row : List ℚ) (s : EngineState) :
    (set_curve_row ct n row s).buffer_states.length = s.buffer_states.length := by
  cases ct <;> rfl

theorem invalidate_buffer_states (sinf : ℚ → ℚ) (twoPi : ℚ) (maxh : ℕ → ℕ) (s : EngineState) :
    (invalidate_after_write sinf twoPi maxh s).buffer_states
      = s.buffer_states.map (fun _ => BufferState.Dirty) := by
  unfold invalidate_after_write
  rw [update_chart_buffer_states]
  rfl

theorem invalidate_key_buffers (sinf : ℚ → ℚ) (twoPi : ℚ) (maxh : ℕ → ℕ) (s : EngineState) :
    (invalidate_after_write sinf twoPi maxh s).key_buffers = s.key_buffers := by
  unfold invalidate_after_write
  rw [update_chart_key_buffers]
  rfl

theorem invalidate_amplitude_data (sinf : ℚ → ℚ) (twoPi : ℚ) (maxh : ℕ → ℕ) (s : EngineState) :
    (invalidate_after_write sinf twoPi maxh s).amplitude_data = s.amplitude_data := by
  unfold invalidate_after_write
  rw [update_chart_amplitude_data]
  rfl

/-- A small but fully populated store used by the concrete witnesses:
one harmonic with two buckets, 25 keys (so the preview key 24 exists),
every key clean and never computed. -/
def sampleState : EngineState :=
  { amplitude_data := [[1/2, 1/2]]
    phase_data := [[0, 0]]
    amplitude_data_normalized := [[0, 0]]
    normalization_needed := false
    harmonic_ampl_enabled := [true]
    harmonic_phase_enabled := [true]
    piano_periods := List.replicate 25 2
    buffer_states := List.replicate 25 BufferState.Clean
    key_buffers := List.replicate 25 none
    voices := List.replicate 25 none
    assembled_sound_plotted := []
    should_reset_chart_view := false }

/-! ## C4: the constant-fill no-op optimization -/

theorem fill_constant_noop_of_eq (sinf : ℚ → ℚ) (twoPi : ℚ) (maxh : ℕ → ℕ)
    (wobbleFreq : ℚ) (n : ℕ) (value : ℚ) (ct : ChartType) (s : EngineState)
    (hv : ((curve_table ct s).getD n []).getD 0 0 = value) :
    fill_constant_curve sinf twoPi maxh 0 wobbleFreq n value ct s = s := by
  have h : ¬ ((((curve_table ct s).getD n []).getD 0 0 ≠ value) ∨ (0:ℚ) < 0) := by
    push_neg
    exact ⟨hv, le_refl 0⟩
  unfold fill_constant_curve
  rw [if_neg h]

/-- **C4** (confirmed).  If `fill_constant_curve(n, v, target)` is called with
wobble amplitude 0 and `v` equal to the first existing value (bucket 0) of the
targeted table's row `n`, the call is a complete no-op: the store — curve
tables, `normalization_needed`, and every key's `BufferState` — is returned
unchanged. -/
theorem c4_fill_constant_noop (sinf : ℚ → ℚ) (twoPi : ℚ) (maxh : ℕ → ℕ)
    (wobbleFreq : ℚ) (n : ℕ) (value : ℚ) (ct : ChartType) (s : EngineState)
    (hv : ((curve_table ct s).getD n []).getD 0 0 = value) :
    fill_constant_curve sinf twoPi maxh 0 wobbleFreq n value ct s = s :=
  fill_constant_noop_of_eq sinf twoPi maxh wobbleFreq n value ct s hv

/-- Witness for C4 at a concrete store: refilling harmonic 0's amplitude
curve with its current constant value `1/2` and no wobble changes nothing. -/
theorem c4_fill_constant_noop_witness :
    fill_constant_curve (fun _ => 0) 0 (fun _ => 1) 0 0 0 (1/2) ChartType.Amp sampleState
      = sampleState :=
  c4_fill_constant_noop (fun _ => 0) 0 (fun _ => 1) 0 0 (1/2) ChartType.Amp sampleState
    (by norm_num [curve_table, sampleState])

/-! ## C3: what the constant amplitude fill writes -/

theorem fill_constant_writes (sinf : ℚ → ℚ) (twoPi : ℚ) (maxh : ℕ → ℕ)
    (wobbleAmp wobbleFreq : ℚ) (n : ℕ) (value : ℚ) (ct : ChartType) (s : EngineState)
    (h : (((curve_table ct s).getD n []).getD 0 0 ≠ value) ∨ 0 < wobbleAmp) :
    fill_constant_curve sinf twoPi maxh wobbleAmp wobbleFreq n value ct s
      = invalidate_after_write sinf twoPi maxh
          (set_curve_row ct n
            (constant_curve_row sinf wobbleAmp wobbleFreq value ct
              (((curve_table ct s).getD n []).length)) s) := by
  simp only [fill_constant_curve]
  rw [if_pos h]

/-- **C3** (corrected).  `fill_constant_curve(n, v, Amplitude)` with wobble
amplitude 0 sets every bucket of harmonic `n`'s amplitude row to
`clamp(v, 0, 1)` — *provided the write happens at all*, i.e. provided `v`
differs from the row's current bucket-0 value (otherwise the documented
no-op branch leaves the table untouched, refuting the unconditional
claim). -/
theorem c3_fill_constant_clamped (sinf : ℚ → ℚ) (twoPi : ℚ) (maxh : ℕ → ℕ)
    (wobbleFreq : ℚ) (n : ℕ) (value : ℚ) (s : EngineState) (b : ℕ)
    (hneq : (s.amplitude_data.getD n []).getD 0 0 ≠ value)
    (hn : n < s.amplitude_data.length)
    (hb : b < (s.amplitude_data.getD n []).length) :
    ((fill_constant_curve sinf twoPi maxh 0 wobbleFreq n value
        ChartType.Amp s).amplitude_data.getD n []).getD b 0 = ratClamp value 0 1 := by
  rw [fill_constant_writes sinf twoPi maxh 0 wobbleFreq n value ChartType.Amp s (Or.inl hneq)]
  rw [invalidate_amplitude_data]
  simp only [set_curve_row]
  rw [getD_set_self _ _ _ _ hn]
  unfold constant_curve_row
  have hb2 : b < ((curve_table ChartType.Amp s).getD n []).length := hb
  rw [getD_range_map _ _ _ _ hb2]
  simp [wobble_term]

/-- Witness for C3 at a concrete store: overwriting the `[1/2, 1/2]` row
with the constant 1 and no wobble makes bucket 1 equal `clamp(1,0,1)`. -/
theorem c3_fill_constant_clamped_witness :
    ((fill_constant_curve (fun _ => 0) 0 (fun _ => 1) 0 0 0 1
        ChartType.Amp sampleState).amplitude_data.getD 0 []).getD 1 0 = ratClamp 1 0 1 :=
  c3_fill_constant_clamped (fun _ => 0) 0 (fun _ => 1) 0 0 1 sampleState 1
    (by norm_num [sampleState]) (by norm_num [sampleState]) (by norm_num [sampleState])

/-- **C3 counterexample.**  With the amplitude row of harmonic 0 currently
`[1/2, 9/10]`, calling `fill_constant_curve(0, 1/2, Amp)` with wobble
amplitude 0 hits the no-op branch (bucket 0 already equals `1/2`), so bucket
1 stays `9/10 ≠ clamp(1/2, 0, 1)`: the claim "every bucket equals
clamp(v,0,1) for every prior table state" is false. -/
theorem c3_counterexample :
    (((fill_constant_curve (fun _ => 0) 0 (fun _ => 1) 0 0 0 (1/2) ChartType.Amp
        { sampleState with amplitude_data := [[1/2, 9/10]] }).amplitude_data).getD 0 []).getD 1 0
      ≠ ratClamp (1/2) 0 1 := by
  have hno : fill_constant_curve (fun _ => 0) 0 (fun _ => 1) 0 0 0 (1/2) ChartType.Amp
      { sampleState with amplitude_data := [[1/2, 9/10]] }
      = { sampleState with amplitude_data := [[1/2, 9/10]] } :=
    fill_constant_noop_of_eq _ _ _ _ _ _ _ _ (by norm_num [curve_table, sampleState])
  rw [hno]
  norm_num [sampleState, ratClamp]
example : normalize_amplitude_data_static [[1, 0], [0, 1]] = [[1, 0], [0, 1]] := by
  norm_num [normalize_amplitude_data_static, colSum, List.range_succ]
example : normalize_amplitude_data [[1/2, 0], [0, 3/10]] = [[1/2, 0], [0, 3/10]] := by
  norm_num [normalize_amplitude_data, sumMaxima, rowMaxNI, scaleTable]
example : normalize_amplitude_data_static [[1, 1], [1, 0]] = [[1/2, 1], [1/2, 0]] := by
  norm_num [normalize_amplitude_data_static, colSum, List.range_succ]

/-! ## C2: cache state after a Curve Generator call -/

/-- **C2 amended** (corrected).  After any Curve Generator call that actually
writes (always for `fill_sin_curve`; for `fill_constant_curve` whenever the
no-op branch is not taken), *every* key's `BufferState` is `Dirty`,
*including* the preview key 24, and the per-key buffer cache `key_buffers`
is unchanged: the synchronous key-24 recompute publishes only to the plotted
chart (`assembled_sound_plotted`), never to the cache, so no key is left
`Clean`. -/
theorem c2_every_key_dirty (sinf : ℚ → ℚ) (twoPi : ℚ) (maxh : ℕ → ℕ)
    (a bFreq ampOff wobbleAmp wobbleFreq value : ℚ) (n k : ℕ) (ct : ChartType)
    (s : EngineState) (hk : k < s.buffer_states.length) :
    ((fill_sin_curve sinf twoPi maxh a bFreq ampOff wobbleAmp wobbleFreq n ct
        s).buffer_states.getD k BufferState.Clean = BufferState.Dirty
      ∧ (fill_sin_curve sinf twoPi maxh a bFreq ampOff wobbleAmp wobbleFreq n ct
          s).key_buffers = s.key_buffers)
    ∧ ((((curve_table ct s).getD n []).getD 0 0 ≠ value ∨ 0 < wobbleAmp) →
      (fill_constant_curve sinf twoPi maxh wobbleAmp wobbleFreq n value ct
        s).buffer_states.getD k BufferState.Clean = BufferState.Dirty
        ∧ (fill_constant_curve sinf twoPi maxh wobbleAmp wobbleFreq n value ct
            s).key_buffers = s.key_buffers) := by
  refine ⟨⟨?_, ?_⟩, fun h => ⟨?_, ?_⟩⟩
  · simp only [fill_sin_curve]
    rw [invalidate_buffer_states, set_curve_row_buffer_states]
    exact getD_map_dirty _ _ hk
  · simp only [fill_sin_curve]
    rw [invalidate_key_buffers, set_curve_row_key_buffers]
  · rw [fill_constant_writes _ _ _ _ _ _ _ _ _ h]
    rw [invalidate_buffer_states, set_curve_row_buffer_states]
    exact getD_map_dirty _ _ hk
  · rw [fill_constant_writes _ _ _ _ _ _ _ _ _ h]
    rw [invalidate_key_buffers, set_curve_row_key_buffers]

/-- Witness for C2 at a concrete store: after a sine fill on the sample
store, the preview key 24 itself is `Dirty`. -/
theorem c2_every_key_dirty_witness :
    (fill_sin_curve (fun _ => 0) 0 (fun _ => 1) 0 0 0 0 0 0 ChartType.Amp
      sampleState).buffer_states.getD 24 BufferState.Clean = BufferState.Dirty :=
  (c2_every_key_dirty (fun _ => 0) 0 (fun _ => 1) 0 0 0 0 0 0 0 24 ChartType.Amp
    sampleState (by norm_num [sampleState])).1.1

/-- **C2 counterexample.**  A constant amplitude fill (value 1 over a
`[1/2, 1/2]` row, so it writes) leaves key 24's `BufferState` `Dirty`, not
`Clean`: the claim that the preview key ends `Clean` with its cached buffer
refreshed is false — `update_assembled_chart_with_key24` never touches
`buffer_states` or `key_buffers`. -/
theorem c2_counterexample :
    (fill_constant_curve (fun _ => 0) 0 (fun _ => 1) 0 0 0 1 ChartType.Amp
      sampleState).buffer_states.getD 24 BufferState.Clean ≠ BufferState.Clean := by
  rw [fill_constant_writes _ _ _ _ _ _ _ _ _ (Or.inl (by norm_num [curve_table, sampleState]))]
  rw [invalidate_buffer_states, set_curve_row_buffer_states]
  rw [getD_map_dirty _ _ (by norm_num [sampleState])]
  simp

/-! ## C5: idempotence of the synchronous normalizer -/

theorem rowMaxNI_fold_div (c : ℚ) (hc : 0 < c) (r : List ℚ) (acc : Option ℚ) :
    (r.map (fun v => v / c)).foldl (fun a v =>
        match a with
        | none => some v
        | some m => some (max m v)) (acc.map (fun v => v / c))
      = ((r.foldl (fun a v =>
          match a with
          | none => some v
          | some m => some (max m v)) acc).map (fun v => v / c)) := by
  induction r generalizing acc with
  | nil => rfl
  | cons x xs ih =>
    cases acc with
    | none =>
      simpa using ih (some x)
    | some m =>
      have hmax : max (m / c) (x / c) = max m x / c := max_div_div_right (le_of_lt hc) m x
      simp only [List.map_cons, List.foldl_cons, Option.map_some']
      rw [hmax]
      exact ih (some (max m x))

theorem rowMaxNI_scale (c : ℚ) (hc : 0 < c) (r : List ℚ) :
    rowMaxNI (r.map (fun v => v / c)) = (rowMaxNI r).map (fun v => v / c) := by
  have h := rowMaxNI_fold_div c hc r none
  simpa [rowMaxNI] using h

theorem sumMaxima_fold_none (t : Table) :
    t.foldl (fun acc r =>
      match acc, rowMaxNI r with
      | some a, some b => some (a + b)
      | _, _ => none) none = none := by
  induction t with
  | nil => rfl
  | cons r rs ih =>
    simp only [List.foldl_cons]
    cases h : rowMaxNI r <;> exact ih

theorem sumMaxima_fold_div (c : ℚ) (hc : 0 < c) (t : Table) (acc : Option ℚ) :
    (t.map (fun r => r.map (fun v => v / c))).foldl (fun acc r =>
        match acc, rowMaxNI r with
        | some a, some b => some (a + b)
        | _, _ => none) (acc.map (fun v => v / c))
      = ((t.foldl (fun acc r =>
          match acc, rowMaxNI r with
          | some a, some b => some (a + b)
          | _, _ => none) acc).map (fun v => v / c)) := by
  induction t generalizing acc with
  | nil => rfl
  | cons r rs ih =>
    simp only [List.map_cons, List.foldl_cons]
    cases acc with
    | none =>
      simp only [Option.map_none']
      cases h : rowMaxNI (r.map (fun v => v / c)) <;>
        simp [sumMaxima_fold_none]
    | some a =>
      rw [rowMaxNI_scale c hc r]
      cases h : rowMaxNI r with
      | none =>
        simp only [Option.map_some', Option.map_none', h]
        simp [sumMaxima_fold_none]
      | some b =>
        simp only [Option.map_some', h]
        rw [div_add_div_same]
        exact ih (some (a + b))

theorem sumMaxima_scaleTable (t : Table) (c : ℚ) (hc : 0 < c) :
    sumMaxima (scaleTable t c) = (sumMaxima t).map (fun v => v / c) := by
  have h := sumMaxima_fold_div c hc t (some 0)
  simpa [sumMaxima, scaleTable, zero_div] using h

/-- **C5** (confirmed).  The synchronous normalizer is idempotent as a pure
table transformation: `normalize(normalize(x)) = normalize(x)` — exactly,
since the embedding computes in `ℚ`.  After a rescale the sum of the
per-harmonic maxima is exactly 1, which is not `> 1`, so the second run
copies unchanged; if no rescale happened the table is untouched anyway. -/
theorem c5_normalize_idempotent (t : Table) :
    normalize_amplitude_data (normalize_amplitude_data t) = normalize_amplitude_data t := by
  unfold normalize_amplitude_data
  cases h : sumMaxima t with
  | none => simp [h]
  | some v =>
    by_cases hv : 1 < v
    · have hv0 : 0 < v := lt_trans one_pos hv
      have h2 : sumMaxima (scaleTable t v) = some 1 := by
        rw [sumMaxima_scaleTable t v hv0, h]
        simp [div_self (ne_of_gt hv0)]
      simp only [h, if_pos hv, h2]
      simp
    · simp [h, hv]

/-! ## C1: the two computation paths do not share one normalizer -/

/-- **C1** (code bug).  Evaluating both normalizers at the amplitude table
`[[1, 0], [0, 1]]` (two harmonics, two buckets): the synchronous path's
`normalize_amplitude_data` rescales by the sum of per-harmonic maxima
(= 2), producing `[[1/2, 0], [0, 1/2]]`, while the background path's
`normalize_amplitude_data_static` rescales each bucket by its own column
sum (= 1 here, so no rescale), producing `[[1, 0], [0, 1]]`.  With
normalization pending the two paths therefore publish different normalized
tables — and hence different sample sequences — refuting the shared-algorithm
requirement the Rust doc comment ("Static version of
normalize_amplitude_data") itself states. -/
theorem c1_normalizers_disagree :
    normalize_amplitude_data [[1, 0], [0, 1]]
      ≠ normalize_amplitude_data_static [[1, 0], [0, 1]] := by
  norm_num [normalize_amplitude_data, normalize_amplitude_data_static, sumMaxima,
    rowMaxNI, scaleTable, colSum, List.range_succ]

/-! ## C6: the post-normalization loudness invariant -/

/-- **C6** (code bug).  The claimed invariant `Σ_n max_b normalized[n][b] ≤
1.0 + ε` holds for the synchronous normalizer but *not* for the background
one: at the failing input `[[1, 0], [0, 1]]` the static normalizer leaves
the table unchanged (each bucket's column sum is exactly 1), yet the sum of
per-harmonic maxima of its output is 2 — far above the claimed bound, while
the synchronous normalizer's output sums to 1. -/
theorem c6_static_normalizer_violates_bound :
    sumMaxima (normalize_amplitude_data_static [[1, 0], [0, 1]]) = some 2
      ∧ sumMaxima (normalize_amplitude_data [[1, 0], [0, 1]]) = some 1 := by
  constructor
  · norm_num [normalize_amplitude_data_static, sumMaxima, rowMaxNI, colSum, List.range_succ]
  · norm_num [normalize_amplitude_data, sumMaxima, rowMaxNI, scaleTable, List.range_succ]

/-! ## C7: get_buffer_for_key cache-or-fallback semantics -/

/-- **C7** (confirmed).  For every in-range key: whenever a cached buffer
exists for the key — whatever its `BufferState` (`Clean`, `Computing` or
`Dirty`, the latter two returning the previous, possibly stale buffer) —
`get_buffer_for_key` returns exactly that buffer and leaves the store
untouched (no synchronous computation); and exactly when no buffer has ever
been computed for the key it performs the synchronous
`assemble_buffer_for_key`. -/
theorem c7_get_buffer_cache_semantics (sinf : ℚ → ℚ) (twoPi : ℚ) (maxh : ℕ → ℕ)
    (numKeys : ℕ) (s : EngineState) (key : ℕ) (hk : key < numKeys) :
    (∀ buf, s.key_buffers.getD key none = some buf →
        get_buffer_for_key sinf twoPi maxh numKeys s key = (s, buf))
    ∧ (s.key_buffers.getD key none = none →
        get_buffer_for_key sinf twoPi maxh numKeys s key
          = assemble_buffer_for_key sinf twoPi maxh s key) := by
  constructor
  · intro buf hbuf
    simp only [get_buffer_for_key]
    rw [if_neg (not_le.mpr hk)]
    rw [List.getD_eq_getElem?_getD] at hbuf
    cases hstate : s.buffer_states.getD key BufferState.Clean <;> simp [hstate, hbuf]
  · intro hnone
    simp only [get_buffer_for_key]
    rw [if_neg (not_le.mpr hk)]
    rw [List.getD_eq_getElem?_getD] at hnone
    cases hstate : s.buffer_states.getD key BufferState.Clean <;> simp [hstate, hnone]

/-- Witness for C7 at a concrete store: key 0 of the sample store has never
been computed, so the call falls back to the synchronous assembly. -/
theorem c7_get_buffer_cache_semantics_witness :
    get_buffer_for_key (fun _ => 0) 0 (fun _ => 1) 25 sampleState 0
      = assemble_buffer_for_key (fun _ => 0) 0 (fun _ => 1) sampleState 0 :=
  (c7_get_buffer_cache_semantics (fun _ => 0) 0 (fun _ => 1) 25 sampleState 0
    (by norm_num)).2 (by simp [sampleState])

/-! ## C8: the mixer loudness bound -/

theorem abs_ratClamp_le_one (x : ℚ) : |ratClamp x (-1) 1| ≤ 1 := by
  unfold ratClamp
  rw [abs_le]
  exact ⟨le_max_left _ _, max_le (by norm_num) (min_le_right _ _)⟩

/-- **C8** (confirmed).  For any audio frame with between 1 and 10 active
voices whose buffer samples all have magnitude at most 1, the mixed sample
written to both channels has magnitude at most 1: the per-voice gain
`0.8/N`, the fade envelopes, the stepped loudness-compensation multiplier
and the final hard clamp to `[-1, 1]` are all applied, and the clamp makes
the bound unconditional. -/
theorem c8_mixer_output_bounded (fadeDuration : ℕ) (voices : List (Option Voice))
    (_h1 : 1 ≤ active_voice_count voices) (_h10 : active_voice_count voices ≤ 10)
    (_hamp : ∀ o ∈ voices, ∀ w : Voice, o = some w → ∀ x ∈ w.buffer, |x| ≤ 1) :
    |(process_frame fadeDuration voices).2| ≤ 1 := by
  simp only [process_frame]
  exact abs_ratClamp_le_one _

/-- One unit-amplitude voice used by the mixer witness. -/
def c8Voices : List (Option Voice) :=
  [some { buffer := [1], idx := 0, fade_in_active := false, fade_in_pos := 0,
          fade_out_active := false, fade_out_pos := 0 }]

/-- Witness for C8: a single fully-sounding unit-amplitude voice mixes to a
sample of magnitude at most 1. -/
theorem c8_mixer_output_bounded_witness :
    |(process_frame 10 c8Voices).2| ≤ 1 :=
  c8_mixer_output_bounded 10 c8Voices
    (by norm_num [active_voice_count, c8Voices])
    (by norm_num [active_voice_count, c8Voices])
    (by
      intro o ho w how x hx
      simp only [c8Voices, List.mem_singleton] at ho
      subst ho
      injection how with h
      subst h
      simp only [List.mem_singleton] at hx
      subst hx
      norm_num)

/-! ## C9: cooperative cancellation discards and re-dirties -/

theorem compute_static_fst (sinf : ℚ → ℚ) (twoPi : ℚ) (maxh : ℕ → ℕ)
    (cancel : ℕ → Bool) (s : EngineState) (key : ℕ) :
    (compute_buffer_for_key_static sinf twoPi maxh cancel s key).1
      = post_normalize_static s := by
  simp only [compute_buffer_for_key_static]
  split <;> rfl

/-- **C9** (confirmed).  If the cancellation flag is observed set at one of
the per-bucket checks during a background computation of a key (and, the
worker being the only thread that ever clears the flag, it is therefore
still set at the post-computation check), then the scheduler iteration
stores no buffer — `key_buffers` is exactly as before — and sets that key's
`BufferState` back to `Dirty`: the edit that raised the flag is never lost
by publishing the discarded result as `Clean`. -/
theorem c9_cancellation_redirties (sinf : ℚ → ℚ) (twoPi : ℚ) (maxh : ℕ → ℕ)
    (cancel : ℕ → Bool) (cancelFinal : Bool) (s : EngineState) (key : ℕ)
    (hk : key < s.buffer_states.length)
    (hd : s.buffer_states.getD key BufferState.Clean = BufferState.Dirty)
    (hobs : observed_cancelled cancel (compute_num_buckets s) = true)
    (hmono : ∀ b, cancel b = true → cancelFinal = true) :
    (schedulerIteration sinf twoPi maxh cancel cancelFinal s key).key_buffers = s.key_buffers
    ∧ (schedulerIteration sinf twoPi maxh cancel cancelFinal s key).buffer_states.getD key
        BufferState.Clean = BufferState.Dirty := by
  have hcf : cancelFinal = true := by
    rcases List.any_eq_true.mp hobs with ⟨b, _hmem, hcb⟩
    exact hmono b hcb
  simp only [schedulerIteration]
  rw [if_pos hd, if_neg (by simp [hcf])]
  rw [compute_static_fst]
  constructor
  · rw [post_normalize_static_key_buffers]
  · rw [post_normalize_static_buffer_states]
    exact getD_set_self _ _ _ _ (by simpa using hk)

/-- A one-key store, dirty and never computed, for the C9 witness. -/
def c9State : EngineState :=
  { amplitude_data := [[1/2]]
    phase_data := [[0]]
    amplitude_data_normalized := [[0]]
    normalization_needed := false
    harmonic_ampl_enabled := [true]
    harmonic_phase_enabled := [true]
    piano_periods := [2]
    buffer_states := [BufferState.Dirty]
    key_buffers := [none]
    voices := [none]
    assembled_sound_plotted := []
    should_reset_chart_view := false }

/-- Witness for C9: with the flag raised at every check, one scheduler pass
over the dirty key 0 stores nothing and leaves the key `Dirty`. -/
theorem c9_cancellation_redirties_witness :
    (schedulerIteration (fun _ => 0) 0 (fun _ => 1) (fun _ => true) true c9State
        0).key_buffers = c9State.key_buffers
    ∧ (schedulerIteration (fun _ => 0) 0 (fun _ => 1) (fun _ => true) true c9State
        0).buffer_states.getD 0 BufferState.Clean = BufferState.Dirty :=
  c9_cancellation_redirties (fun _ => 0) 0 (fun _ => 1) (fun _ => true) true c9State 0
    (by norm_num [c9State])
    (by norm_num [c9State])
    (by norm_num [observed_cancelled, compute_num_buckets, post_normalize_static,
          c9State, List.range_succ])
    (fun _ _ => rfl)

/-! ## C10: note-on unconditionally installs a fresh voice -/

theorem get_buffer_fst_voices (sinf : ℚ → ℚ) (twoPi : ℚ) (maxh : ℕ → ℕ)
    (numKeys : ℕ) (s : EngineState) (key : ℕ) :
    (get_buffer_for_key sinf twoPi maxh numKeys s key).1.voices = s.voices := by
  simp only [get_buffer_for_key]
  split
  · rfl
  · split
    · rfl
    · rw [assemble_fst]
      exact post_normalize_voices s

theorem get_buffer_fst_voices_length (sinf : ℚ → ℚ) (twoPi : ℚ) (maxh : ℕ → ℕ)
    (numKeys : ℕ) (s : EngineState) (key : ℕ) :
    (get_buffer_for_key sinf twoPi maxh numKeys s key).1.voices.length
      = s.voices.length := by
  rw [get_buffer_fst_voices]

/-- **C10** (confirmed).  A note-on for an in-range key always installs a
brand-new voice in that key's slot — the freshly fetched buffer, playback
cursor 0, fade-in active from position 0, fade-out inactive at position 0 —
whatever voice (including one mid-fade-out) previously occupied the slot. -/
theorem c10_note_on_installs_fresh_voice (sinf : ℚ → ℚ) (twoPi : ℚ) (maxh : ℕ → ℕ)
    (numKeys : ℕ) (s : EngineState) (note : ℕ)
    (hnote : note < numKeys) (hv : note < s.voices.length) :
    (note_on_event sinf twoPi maxh numKeys s note).voices.getD note none
      = some { buffer := (get_buffer_for_key sinf twoPi maxh numKeys s note).2,
               idx := 0, fade_in_active := true, fade_in_pos := 0,
               fade_out_active := false, fade_out_pos := 0 } := by
  simp only [note_on_event]
  rw [if_pos hnote]
  exact getD_set_self _ _ _ _ (by rw [get_buffer_fst_voices]; exact hv)

/-- Witness for C10: a note-on at key 3 of the sample store (slot previously
empty, buffer never computed) installs the fresh voice. -/
theorem c10_note_on_installs_fresh_voice_witness :
    (note_on_event (fun _ => 0) 0 (fun _ => 1) 25 sampleState 3).voices.getD 3 none
      = some { buffer := (get_buffer_for_key (fun _ => 0) 0 (fun _ => 1) 25 sampleState 3).2,
               idx := 0, fade_in_active := true, fade_in_pos := 0,
               fade_out_active := false, fade_out_pos := 0 } :=
  c10_note_on_installs_fresh_voice (fun _ => 0) 0 (fun _ => 1) 25 sampleState 3
    (by norm_num) (by norm_num [sampleState])
